import Mathlib

/-!
Verification of the Telegram topic-subscription service
(src/services/subscriptions/app.py) via a shallow embedding.

Strings are modelled over their character lists; the Python string
helpers (strip, lower, split) are embedded for the ASCII fragment the
service manipulates (topic identifiers, commands and tokens are ASCII).
Python dicts are modelled as association lists looked up at the first
matching key; every dict the program persists has unique keys.
-/

namespace TopicAlerts

/-! ### Python string primitives (ASCII fragment) -/

/-- Whitespace recognised by Python str.strip / str.split for the ASCII
range: space, tab, newline, carriage return, vertical tab, form feed. -/
def isPyWs (c : Char) : Bool :=
  decide (c.toNat = 32 ∨ c.toNat = 9 ∨ c.toNat = 10 ∨ c.toNat = 13 ∨ c.toNat = 11 ∨ c.toNat = 12)

/-- str.strip() on a character list: drop leading and trailing whitespace. -/
def pyStripList (l : List Char) : List Char :=
  ((l.dropWhile isPyWs).reverse.dropWhile isPyWs).reverse

/-- str.strip(). -/
def pyStrip (s : String) : String := String.mk (pyStripList s.data)

/-- str.lower() on one character, ASCII case mapping. -/
def pyLowerChar (c : Char) : Char :=
  if 65 ≤ c.toNat ∧ c.toNat ≤ 90 then Char.ofNat (c.toNat + 32) else c

/-- str.lower(). -/
def pyLower (s : String) : String := String.mk (s.data.map pyLowerChar)

theorem toNat_ofNat_of_valid {n : Nat} (h : n.isValidChar) : (Char.ofNat n).toNat = n := by
  simp [Char.ofNat, h, Char.ofNatAux, Char.toNat, UInt32.toNat, BitVec.toNat_ofNatLt]

theorem toNat_pyLowerChar (c : Char) :
    (pyLowerChar c).toNat = if 65 ≤ c.toNat ∧ c.toNat ≤ 90 then c.toNat + 32 else c.toNat := by
  unfold pyLowerChar
  split
  case isTrue h =>
    have hval : (c.toNat + 32).isValidChar := by
      have : c.toNat + 32 < 0xd800 := by omega
      exact Or.inl this
    rw [toNat_ofNat_of_valid hval]
  case isFalse h => rfl

/-- The first character class of TOPIC_PATTERN: [a-z0-9]. -/
def isLowerAlnum (c : Char) : Bool :=
  decide ((97 ≤ c.toNat ∧ c.toNat ≤ 122) ∨ (48 ≤ c.toNat ∧ c.toNat ≤ 57))

/-- The continuation character class of TOPIC_PATTERN: [a-z0-9-]. -/
def isTopicChar (c : Char) : Bool :=
  isLowerAlnum c || decide (c.toNat = 45)

theorem isPyWs_pyLowerChar (c : Char) : isPyWs (pyLowerChar c) = isPyWs c := by
  simp only [isPyWs, toNat_pyLowerChar]
  refine decide_eq_decide.mpr ?_
  split <;> omega

theorem pyLowerChar_eq_self_of_not_upper {c : Char}
    (h : ¬ (65 ≤ c.toNat ∧ c.toNat ≤ 90)) : pyLowerChar c = c := by
  unfold pyLowerChar
  rw [if_neg h]

theorem pyLowerChar_not_upper (c : Char) :
    ¬ (65 ≤ (pyLowerChar c).toNat ∧ (pyLowerChar c).toNat ≤ 90) := by
  rw [toNat_pyLowerChar]
  split <;> omega

theorem pyLowerChar_pyLowerChar (c : Char) : pyLowerChar (pyLowerChar c) = pyLowerChar c :=
  pyLowerChar_eq_self_of_not_upper (pyLowerChar_not_upper c)

theorem topicChar_range {c : Char} (h : isTopicChar c = true) :
    (97 ≤ c.toNat ∧ c.toNat ≤ 122) ∨ (48 ≤ c.toNat ∧ c.toNat ≤ 57) ∨ c.toNat = 45 := by
  simp only [isTopicChar, isLowerAlnum, Bool.or_eq_true, decide_eq_true_eq] at h
  tauto

theorem pyLowerChar_eq_self_of_isTopicChar {c : Char} (h : isTopicChar c = true) :
    pyLowerChar c = c :=
  pyLowerChar_eq_self_of_not_upper (by have := topicChar_range h; omega)

theorem isPyWs_eq_false_of_isTopicChar {c : Char} (h : isTopicChar c = true) :
    isPyWs c = false := by
  have hc := topicChar_range h
  simp only [isPyWs, decide_eq_false_iff_not]
  omega

/-! Generic dropWhile facts used for strip. -/

theorem dropWhile_nil_or_head (p : Char → Bool) (l : List Char) :
    l.dropWhile p = [] ∨ ∃ a t, l.dropWhile p = a :: t ∧ p a = false := by
  induction l with
  | nil => exact Or.inl rfl
  | cons a t ih =>
    by_cases h : p a = true
    · rw [List.dropWhile_cons, if_pos h]
      exact ih
    · refine Or.inr ⟨a, t, ?_, ?_⟩
      · rw [List.dropWhile_cons, if_neg h]
      · cases hpa : p a with
        | false => rfl
        | true => exact absurd hpa h

theorem dropWhile_dropWhile (p : Char → Bool) (l : List Char) :
    (l.dropWhile p).dropWhile p = l.dropWhile p := by
  rcases dropWhile_nil_or_head p l with h | ⟨a, t, h, hp⟩ <;> rw [h]
  · rfl
  · simp [List.dropWhile_cons, hp]

theorem dropWhile_eq_self_of_forall {p : Char → Bool} {l : List Char}
    (h : ∀ c ∈ l, p c = false) : l.dropWhile p = l := by
  cases l with
  | nil => rfl
  | cons a t => simp [List.dropWhile_cons, h a (by simp)]

theorem dropWhile_map {p : Char → Bool} {f : Char → Char}
    (hf : ∀ c, p (f c) = p c) (l : List Char) :
    (l.map f).dropWhile p = (l.dropWhile p).map f := by
  induction l with
  | nil => rfl
  | cons a t ih =>
    by_cases h : p a = true
    · simp [List.dropWhile_cons, hf a, h, ih]
    · simp only [Bool.not_eq_true] at h
      simp [List.dropWhile_cons, hf a, h]

/-! pyStrip facts. -/

theorem pyStripList_subset (l : List Char) : ∀ c ∈ pyStripList l, c ∈ l := by
  intro c hc
  unfold pyStripList at hc
  rw [List.mem_reverse] at hc
  have h1 := (List.dropWhile_sublist (l := (l.dropWhile isPyWs).reverse) (p := isPyWs)).subset hc
  rw [List.mem_reverse] at h1
  exact (List.dropWhile_sublist (l := l) (p := isPyWs)).subset h1

theorem pyStripList_eq_self_of_forall {l : List Char}
    (h : ∀ c ∈ l, isPyWs c = false) : pyStripList l = l := by
  unfold pyStripList
  rw [dropWhile_eq_self_of_forall h,
      dropWhile_eq_self_of_forall (by intro c hc; exact h c (List.mem_reverse.mp hc)),
      List.reverse_reverse]

theorem pyStripList_pyStripList (l : List Char) :
    pyStripList (pyStripList l) = pyStripList l := by
  unfold pyStripList
  set A := l.dropWhile isPyWs with hA
  set B := A.reverse.dropWhile isPyWs with hB
  have hdwB : B.reverse.dropWhile isPyWs = B.reverse := by
    rcases dropWhile_nil_or_head isPyWs A.reverse with h0 | ⟨a, t, h0, hpa⟩
    · rw [← hB] at h0
      rw [h0]
      rfl
    · rcases dropWhile_nil_or_head isPyWs l with hz | ⟨b, s, hz, hpb⟩
      · exfalso
        rw [← hA] at hz
        rw [hz] at h0
        simp at h0
      · rw [← hA] at hz
        have hBne : B ≠ [] := by
          rw [hB, h0]
          simp
        have hlast : B.getLast? = some b := by
          have hsuf : B <:+ A.reverse := by rw [hB]; exact List.dropWhile_suffix isPyWs
          rcases hsuf with ⟨pre, hpre⟩
          have hg : A.reverse.getLast? = B.getLast? := by
            rw [← hpre]
            exact List.getLast?_append_of_ne_nil pre hBne
          rw [List.getLast?_reverse, hz] at hg
          simp at hg
          exact hg.symm
        cases hrb : B.reverse with
        | nil => simp
        | cons x xs =>
          have hx : x = b := by
            have hh : B.reverse.head? = some x := by rw [hrb]; rfl
            rw [List.head?_reverse, hlast] at hh
            exact (Option.some.inj hh).symm
          rw [List.dropWhile_cons, hx, hpb]
          simp
  rw [hdwB, List.reverse_reverse, hB, dropWhile_dropWhile]

theorem pyStrip_pyStrip (s : String) : pyStrip (pyStrip s) = pyStrip s := by
  unfold pyStrip
  rw [pyStripList_pyStripList]

/-! pyLower facts. -/

theorem pyLower_pyLower (s : String) : pyLower (pyLower s) = pyLower s := by
  unfold pyLower
  simp only [List.map_map]
  congr 1
  apply List.map_congr_left
  intro c _
  exact pyLowerChar_pyLowerChar c

theorem pyStrip_pyLower (s : String) : pyStrip (pyLower s) = pyLower (pyStrip s) := by
  unfold pyStrip pyLower pyStripList
  simp only
  rw [dropWhile_map isPyWs_pyLowerChar, ← List.map_reverse, dropWhile_map isPyWs_pyLowerChar,
      ← List.map_reverse]

/-- strip-then-lower normalization applied throughout the service. -/
def pyNorm (s : String) : String := pyLower (pyStrip s)

theorem pyNorm_pyNorm (s : String) : pyNorm (pyNorm s) = pyNorm s := by
  unfold pyNorm
  rw [pyStrip_pyLower, pyLower_pyLower, pyStrip_pyStrip]

/-! ### Remaining Python string operations -/

/-- str.startswith. -/
def strStartsWith (s pre : String) : Bool := pre.data.isPrefixOf s.data

/-- Python slice s[n:]. -/
def strDrop (s : String) (n : Nat) : String := String.mk (s.data.drop n)

/-- The membership test c in s on a one-character needle. -/
def strContainsChar (s : String) (c : Char) : Bool := s.data.contains c

/-- text.split(" ", 1)[1]: everything after the first literal space. -/
def afterFirstSpace (s : String) : String :=
  String.mk ((s.data.dropWhile (fun c => c != ' ')).drop 1)

/-- text.split(maxsplit=1): the second component when it exists.  Leading
whitespace, the first whitespace-delimited token and the separating run of
whitespace are removed; none is returned when nothing remains. -/
def pySplitRest (s : String) : Option String :=
  let cs := s.data.dropWhile isPyWs
  let rest := (cs.dropWhile (fun c => !isPyWs c)).dropWhile isPyWs
  if rest.isEmpty then none else some (String.mk rest)

/-- ", ".join. -/
def joinComma : List String → String
  | [] => ""
  | [x] => x
  | x :: y :: ys => x ++ ", " ++ joinComma (y :: ys)

/-! ### Python dicts as association lists

A dict is looked up at the first matching key; updates replace the first
binding in place (preserving insertion order) and append fresh keys at the
end, matching CPython semantics.  Dicts built by the program always have
unique keys. -/

def lookupA {α : Type} (k : String) : List (String × α) → Option α
  | [] => none
  | p :: rest => if p.1 = k then some p.2 else lookupA k rest

def insertA {α : Type} (k : String) (v : α) : List (String × α) → List (String × α)
  | [] => [(k, v)]
  | p :: rest => if p.1 = k then (k, v) :: rest else p :: insertA k v rest

/-- dict.pop: with unique keys, removing the binding is filtering it out. -/
def eraseA {α : Type} (k : String) (l : List (String × α)) : List (String × α) :=
  l.filter (fun p => p.1 != k)

def keysA {α : Type} (l : List (String × α)) : List String := l.map Prod.fst

def NodupKeysA {α : Type} (l : List (String × α)) : Prop := (keysA l).Nodup

theorem lookupA_insertA_self {α : Type} (k : String) (v : α) (l : List (String × α)) :
    lookupA k (insertA k v l) = some v := by
  induction l with
  | nil => simp [insertA, lookupA]
  | cons p rest ih =>
    by_cases h : p.1 = k
    · simp [insertA, h, lookupA]
    · simp [insertA, h, lookupA, ih]

theorem lookupA_insertA_ne {α : Type} {k k' : String} (v : α) (l : List (String × α))
    (h : k' ≠ k) : lookupA k' (insertA k v l) = lookupA k' l := by
  have hkk' : ¬ k = k' := fun hh => h hh.symm
  induction l with
  | nil => simp [insertA, lookupA, hkk']
  | cons p rest ih =>
    by_cases hp : p.1 = k
    · have hp' : ¬ p.1 = k' := by rw [hp]; exact hkk'
      rw [insertA, if_pos hp]
      simp [lookupA, hkk', hp']
    · rw [insertA, if_neg hp]
      simp only [lookupA]
      by_cases hp' : p.1 = k'
      · simp [hp']
      · simp [hp', ih]

theorem lookupA_eq_none_iff {α : Type} {k : String} {l : List (String × α)} :
    lookupA k l = none ↔ ∀ p ∈ l, p.1 ≠ k := by
  induction l with
  | nil => simp [lookupA]
  | cons p rest ih =>
    by_cases h : p.1 = k
    · simp [lookupA, h]
    · simp [lookupA, h, ih]

theorem eraseA_eq_self_of_lookup_none {α : Type} {k : String} {l : List (String × α)}
    (h : lookupA k l = none) : eraseA k l = l := by
  rw [lookupA_eq_none_iff] at h
  unfold eraseA
  apply List.filter_eq_self.mpr
  intro p hp
  simpa using h p hp

theorem lookupA_eraseA_self {α : Type} (k : String) (l : List (String × α)) :
    lookupA k (eraseA k l) = none := by
  rw [lookupA_eq_none_iff]
  intro p hp
  have := List.of_mem_filter hp
  simpa using this

theorem lookupA_eraseA_ne {α : Type} {k k' : String} (l : List (String × α))
    (h : k' ≠ k) : lookupA k' (eraseA k l) = lookupA k' l := by
  unfold eraseA
  induction l with
  | nil => rfl
  | cons p rest ih =>
    rw [List.filter_cons]
    by_cases hp : p.1 = k
    · have hf : (p.1 != k) = false := by simp [hp]
      have hp' : ¬ p.1 = k' := by rw [hp]; exact fun hh => h hh.symm
      rw [hf]
      simp only [Bool.false_eq_true, if_false, ih]
      simp [lookupA, hp']
    · have ht : (p.1 != k) = true := by simp [hp]
      rw [ht]
      simp only [if_true]
      simp only [lookupA]
      by_cases hp' : p.1 = k'
      · simp [hp']
      · simp [hp', ih]

theorem lookupA_filter_of_kept {α : Type} {k : String} {v : α} {l : List (String × α)}
    {q : String × α → Bool} (h : lookupA k l = some v) (hq : q (k, v) = true) :
    lookupA k (l.filter q) = some v := by
  induction l with
  | nil => simp [lookupA] at h
  | cons p rest ih =>
    by_cases hp : p.1 = k
    · rw [lookupA, if_pos hp] at h
      have hv : p = (k, v) := by
        cases p
        simp at hp h
        simp [hp, h]
      rw [List.filter_cons, hv]
      simp only [hq, if_true]
      rw [lookupA, if_pos rfl]
    · rw [lookupA, if_neg hp] at h
      rw [List.filter_cons]
      by_cases hqp : q p = true
      · simp only [hqp, if_true]
        rw [lookupA, if_neg hp]
        exact ih h
      · simp only [hqp, if_false]
        exact ih h

theorem lookupA_filter_of_none {α : Type} {k : String} {l : List (String × α)}
    {q : String × α → Bool} (h : lookupA k l = none) :
    lookupA k (l.filter q) = none := by
  rw [lookupA_eq_none_iff] at h ⊢
  intro p hp
  exact h p (List.mem_of_mem_filter hp)

theorem lookupA_filter_of_dropped {α : Type} {k : String} {v : α} {l : List (String × α)}
    {q : String × α → Bool} (hnd : NodupKeysA l) (h : lookupA k l = some v)
    (hq : q (k, v) = false) : lookupA k (l.filter q) = none := by
  induction l with
  | nil => simp [lookupA] at h
  | cons p rest ih =>
    have hnd' : NodupKeysA rest := by
      unfold NodupKeysA keysA at hnd ⊢
      exact (List.nodup_cons.mp hnd).2
    by_cases hp : p.1 = k
    · rw [lookupA, if_pos hp] at h
      have hv : p = (k, v) := by
        cases p
        simp at hp h
        simp [hp, h]
      have hrest : lookupA k rest = none := by
        rw [lookupA_eq_none_iff]
        intro p' hp'
        have hnotin := (List.nodup_cons.mp hnd).1
        intro hk
        exact hnotin (by rw [hp, ← hk]; exact List.mem_map_of_mem Prod.fst hp')
      rw [List.filter_cons, hv]
      simp only [hq, if_false]
      exact lookupA_filter_of_none hrest
    · rw [lookupA, if_neg hp] at h
      rw [List.filter_cons]
      by_cases hqp : q p = true
      · simp only [hqp, if_true]
        rw [lookupA, if_neg hp]
        exact ih hnd' h
      · simp only [hqp, if_false]
        exact ih hnd' h

theorem mem_insertA {α : Type} {k : String} {v : α} {l : List (String × α)}
    {q : String × α} (hq : q ∈ insertA k v l) : q ∈ l ∨ q = (k, v) := by
  induction l with
  | nil =>
    rw [insertA] at hq
    right
    exact List.mem_singleton.mp hq
  | cons r rs ihr =>
    by_cases hr : r.1 = k
    · rw [insertA, if_pos hr] at hq
      rcases List.mem_cons.mp hq with h1 | h1
      · right; exact h1
      · left; exact List.mem_cons_of_mem _ h1
    · rw [insertA, if_neg hr] at hq
      rcases List.mem_cons.mp hq with h1 | h1
      · left; rw [h1]; exact List.mem_cons_self _ _
      · rcases ihr h1 with h2 | h2
        · left; exact List.mem_cons_of_mem _ h2
        · right; exact h2

theorem nodupKeysA_insertA {α : Type} {k : String} {v : α} {l : List (String × α)}
    (h : NodupKeysA l) : NodupKeysA (insertA k v l) := by
  induction l with
  | nil => simp [insertA, NodupKeysA, keysA]
  | cons p rest ih =>
    unfold NodupKeysA keysA at h
    rw [List.map_cons, List.nodup_cons] at h
    by_cases hp : p.1 = k
    · unfold NodupKeysA keysA
      rw [insertA, if_pos hp, List.map_cons, List.nodup_cons]
      refine ⟨?_, h.2⟩
      simpa [hp] using h.1
    · have ih' := ih h.2
      unfold NodupKeysA keysA at ih' ⊢
      rw [insertA, if_neg hp, List.map_cons, List.nodup_cons]
      refine ⟨?_, ih'⟩
      intro hmem
      rcases List.mem_map.mp hmem with ⟨q, hq, hfst⟩
      rcases mem_insertA hq with h2 | h2
      · exact h.1 (hfst ▸ List.mem_map_of_mem Prod.fst h2)
      · have hqk : q.1 = k := by rw [h2]
        exact hp (hfst ▸ hqk)

theorem nodupKeysA_filter {α : Type} {l : List (String × α)} {q : String × α → Bool}
    (h : NodupKeysA l) : NodupKeysA (l.filter q) := by
  unfold NodupKeysA keysA at h ⊢
  exact List.Sublist.nodup (List.Sublist.map Prod.fst (List.filter_sublist l)) h

/-! ### sorted(set(...)) as a sorted duplicate-free list -/

/-- Lexicographic code-point comparison, the order of Python sorted() on
the strings the service stores. -/
def strLtB : List Char → List Char → Bool
  | [], [] => false
  | [], _ :: _ => true
  | _ :: _, [] => false
  | a :: as, b :: bs =>
    if a.toNat < b.toNat then true
    else if b.toNat < a.toNat then false
    else strLtB as bs

def strLt (a b : String) : Bool := strLtB a.data b.data

def insertSorted (x : String) : List String → List String
  | [] => [x]
  | y :: ys =>
    if x = y then y :: ys
    else if strLt x y then x :: y :: ys
    else y :: insertSorted x ys

def sortDedup (l : List String) : List String := l.foldr insertSorted []

theorem mem_insertSorted {a x : String} {l : List String} :
    a ∈ insertSorted x l ↔ a = x ∨ a ∈ l := by
  induction l with
  | nil => simp [insertSorted]
  | cons y ys ih =>
    by_cases h1 : x = y
    · rw [insertSorted, if_pos h1]
      constructor
      · intro h; right; exact h
      · intro h
        rcases h with h | h
        · rw [h, h1]; exact List.mem_cons_self _ _
        · exact h
    · rw [insertSorted, if_neg h1]
      by_cases h2 : strLt x y = true
      · rw [if_pos h2]
        simp
      · rw [if_neg h2]
        simp only [List.mem_cons, ih]
        tauto

theorem mem_sortDedup {a : String} {l : List String} :
    a ∈ sortDedup l ↔ a ∈ l := by
  induction l with
  | nil => simp [sortDedup]
  | cons y ys ih =>
    unfold sortDedup at ih ⊢
    rw [List.foldr_cons, mem_insertSorted, ih]
    simp

/-! ### Data model (src/services/subscriptions/app.py)

Records mirror the JSON documents the service persists.  All records the
program writes carry every field below; confirmed_at is only present on
confirmed LinkStatus records, hence an Option read with the default 0 the
source supplies to record.get. -/

structure PendingLink where
  topic : String
  created_at : Int
  expires_at : Int
deriving Repr, DecidableEq

structure LinkStatusRec where
  topic : String
  created_at : Int
  expires_at : Int
  status : String
  confirmed_at : Option Int
deriving Repr, DecidableEq

structure ChatRecord where
  chat_id : Int
  username : Option String
  first_name : Option String
  last_name : Option String
  topics : List String
  updated_at : Int
deriving Repr, DecidableEq

/-- subscriptions.json: the dual index of chat records and topic → chat ids. -/
structure Subs where
  chats : List (String × ChatRecord)
  topics : List (String × List String)
deriving Repr, DecidableEq

/-- The three durable documents. -/
structure Stores where
  pending : List (String × PendingLink)
  statuses : List (String × LinkStatusRec)
  subs : Subs
deriving Repr, DecidableEq

def LINK_TTL_SECONDS : Int := 900

def LINK_STATUS_RETENTION_SECONDS : Int := 86400

/-- START_PREFIX in the source. -/
def startMarker : String := "subscribe_"

/-! ### Topic validation -/

/-- re.match(TOPIC_PATTERN, s) for TOPIC_PATTERN = [a-z0-9][a-z0-9-]{1,49}
anchored at both ends. -/
def topicPatternMatch (s : String) : Bool :=
  match s.data with
  | [] => false
  | c :: rest =>
    isLowerAlnum c && decide (1 ≤ rest.length) && decide (rest.length ≤ 49) &&
      rest.all isTopicChar

/-- _sanitize_topic: normalize, then accept or raise HTTPException 400. -/
def sanitizeTopic (topic : String) : Option String :=
  let clean := pyNorm topic
  if topicPatternMatch clean then some clean else none

/-! ### Link token manager -/

/-- _prune_pending: keep records with expires_at strictly in the future. -/
def prunePending (pending : List (String × PendingLink)) (now : Int) :
    List (String × PendingLink) :=
  pending.filter (fun p => decide (p.2.expires_at > now))

/-- _prune_link_status: keep pending records inside the retention window
after expiry and confirmed records inside the retention window after
confirmation. -/
def pruneLinkStatus (statuses : List (String × LinkStatusRec)) (now : Int) :
    List (String × LinkStatusRec) :=
  statuses.filter (fun p =>
    (pyNorm p.2.status == "pending" &&
      decide (p.2.expires_at + LINK_STATUS_RETENTION_SECONDS > now)) ||
    (pyNorm p.2.status == "confirmed" &&
      decide (p.2.confirmed_at.getD 0 + LINK_STATUS_RETENTION_SECONDS > now)))

/-- The pending-document update of create_subscription_link: prune, then
insert the fresh token with expires_at = now + TTL. -/
def createLinkPending (pending : List (String × PendingLink)) (token topic : String)
    (now : Int) : List (String × PendingLink) :=
  insertA token { topic := topic, created_at := now, expires_at := now + LINK_TTL_SECONDS }
    (prunePending pending now)

/-- Token consumption inside telegram_webhook: read, prune, pop, write.
Returns the popped record (if any live one existed) and the document as
written back. -/
def consume (pending : List (String × PendingLink)) (token : String) (now : Int) :
    Option PendingLink × List (String × PendingLink) :=
  let pruned := prunePending pending now
  (lookupA token pruned, eraseA token pruned)

/-! ### Subscription store -/

/-- _chat_topics: the chat's topic set, entries normalized and blank ones
dropped; represented canonically as a sorted duplicate-free list. -/
def chatTopicsOf (subs : Subs) (chat_id : Int) : List String :=
  match lookupA (toString chat_id) subs.chats with
  | none => []
  | some r => sortDedup ((r.topics.filter (fun t => pyStrip t != "")).map pyNorm)

/-- The removal loop of _save_chat_topics: drop the chat key from every
topic entry, deleting entries left with an empty chat-id set. -/
def removalPass (chatKey : String) (tix : List (String × List String)) :
    List (String × List String) :=
  (tix.map (fun p => (p.1, sortDedup (p.2.filter (fun cid => cid != chatKey))))).filter
    (fun p => !p.2.isEmpty)

/-- The addition loop of _save_chat_topics: add the chat key to the entry
of every topic in the new set. -/
def addChatKey (chatKey : String) (topicsForChat : List String)
    (tix : List (String × List String)) : List (String × List String) :=
  topicsForChat.foldl
    (fun acc t => insertA t (sortDedup (chatKey :: (lookupA t acc).getD [])) acc) tix

/-- _save_chat_topics: rewrite the chat record with the new topic set, drop
the chat key from every topic entry (deleting entries left empty), then add
the chat key to every topic of the new set. -/
def saveChatTopics (subs : Subs) (chat_id : Int) (topicsForChat : List String)
    (now : Int) : Subs :=
  let chatKey := toString chat_id
  let existing := lookupA chatKey subs.chats
  let chats' := insertA chatKey
    { chat_id := chat_id
      username := existing.bind ChatRecord.username
      first_name := existing.bind ChatRecord.first_name
      last_name := existing.bind ChatRecord.last_name
      topics := sortDedup topicsForChat
      updated_at := now } subs.chats
  let topics' := addChatKey chatKey topicsForChat (removalPass chatKey subs.topics)
  { chats := chats', topics := topics' }

/-- The incremental subscription write in the webhook confirm path
(lines 421-439): rewrite the chat record with the enlarged topic set and
add the chat key to the one topic entry. -/
def webhookSubscribeApply (subs : Subs) (chat_id : Int)
    (username first_name last_name : Option String) (topic : String) (now : Int) : Subs :=
  let chatKey := toString chat_id
  let current := chatTopicsOf subs chat_id
  let chats' := insertA chatKey
    { chat_id := chat_id
      username := username
      first_name := first_name
      last_name := last_name
      topics := sortDedup (topic :: current)
      updated_at := now } subs.chats
  let ids := sortDedup (chatKey :: (lookupA topic subs.topics).getD [])
  let topics' := insertA topic ids subs.topics
  { chats := chats', topics := topics' }

/-! ### Link status endpoint -/

inductive LinkStatusView where
  | invalid
  | record (status : String) (topic : String) (expires_at : Int)
      (expires_in_seconds : Int) (confirmed_at : Option Int)
deriving Repr, DecidableEq

/-- get_subscription_link_status: 400 on a malformed start parameter;
otherwise prune-and-write the status document, then report the record with
a lazily recomputed pending → expired transition. -/
def getSubscriptionLinkStatus (statuses : List (String × LinkStatusRec))
    (start_param : String) (now : Int) :
    Except String (List (String × LinkStatusRec) × LinkStatusView) :=
  if !(strStartsWith start_param startMarker) then .error "Invalid start parameter"
  else
    let token := pyStrip (strDrop start_param startMarker.length)
    if token = "" then .error "Invalid start parameter"
    else
      let written := pruneLinkStatus statuses now
      match lookupA token written with
      | none => .ok (written, .invalid)
      | some r =>
        let status0 := pyNorm r.status
        let status := if status0 = "pending" ∧ r.expires_at ≤ now then "expired" else status0
        .ok (written, .record status (pyNorm r.topic) r.expires_at
          (max 0 (r.expires_at - now))
          (if status = "confirmed" then some (r.confirmed_at.getD now) else none))

/-! ### Webhook command processor -/

/-- The message object of an inbound update after JSON decoding:
update.message or update.edited_message, with chat.id kept only when it is
an integer. -/
structure TgMessage where
  text : Option String
  chat_id : Option Int
  from_username : Option String
  from_first_name : Option String
  from_last_name : Option String
deriving Repr, DecidableEq

/-- Every branch of telegram_webhook performs its document writes first and
then sends at most one message before returning, so a handler run is the
final store state, the attempted send, and the outcome: ok () for the 200
response with body ok=true, error for an exception escaping the handler. -/
structure HandlerResult where
  stores : Stores
  sent : List (Int × String)
  outcome : Except String Unit

/-- Finish a handler branch: record the attempted send; a gateway failure
raises (RuntimeError out of _send_message) after the writes. -/
def mkRes (sendOk : Int → String → Bool) (st : Stores) (send : Option (Int × String)) :
    HandlerResult :=
  match send with
  | none => { stores := st, sent := [], outcome := .ok () }
  | some (c, m) =>
    { stores := st, sent := [(c, m)],
      outcome := if sendOk c m then .ok () else .error "Telegram API send failure" }

/-- The pure part of telegram_webhook after the secret check: final stores
and the (at most one) reply to send. -/
def webhookStep (st : Stores) (msg : TgMessage) (now : Int) :
    Stores × Option (Int × String) :=
  let text := pyStrip (msg.text.getD "")
  match msg.chat_id with
  | none => (st, none)
  | some chat_id =>
    if !(strStartsWith text "/start") || !(strContainsChar text ' ') then
      if text = "/start" then
        (st, some (chat_id,
          "Welcome. To subscribe, open the topic page and tap Subscribe on Telegram.\nCommands: /topics, /unsubscribe <topic>, /unsubscribe_all"))
      else if text = "/topics" then
        let topicsForChat := chatTopicsOf st.subs chat_id
        if !topicsForChat.isEmpty then
          (st, some (chat_id, "You are subscribed to: " ++ joinComma topicsForChat))
        else
          (st, some (chat_id, "You are not subscribed to any topics yet."))
      else if strStartsWith text "/unsubscribe" then
        match pySplitRest text with
        | none => (st, some (chat_id, "Usage: /unsubscribe <topic> or /unsubscribe_all"))
        | some rest =>
          if pyNorm rest = "all" then
            let topicsForChat := chatTopicsOf st.subs chat_id
            if !topicsForChat.isEmpty then
              ({ st with subs := saveChatTopics st.subs chat_id [] now },
               some (chat_id, "Unsubscribed from all topics."))
            else
              (st, some (chat_id, "You are not subscribed to any topics."))
          else
            match sanitizeTopic (pyStrip rest) with
            | none =>
              (st, some (chat_id,
                "Topic format is invalid. Use lowercase letters, numbers, and hyphens."))
            | some target =>
              let topicsForChat := chatTopicsOf st.subs chat_id
              let subs' := saveChatTopics st.subs chat_id
                (topicsForChat.filter (fun t => t != target)) now
              if target ∈ topicsForChat then
                ({ st with subs := subs' },
                 some (chat_id, "Unsubscribed from: " ++ target))
              else
                (st, some (chat_id, "You are not subscribed to: " ++ target))
      else if text = "/unsubscribe_all" then
        let topicsForChat := chatTopicsOf st.subs chat_id
        if !topicsForChat.isEmpty then
          ({ st with subs := saveChatTopics st.subs chat_id [] now },
           some (chat_id, "Unsubscribed from all topics."))
        else
          (st, some (chat_id, "You are not subscribed to any topics."))
      else (st, none)
    else
      let payload := pyStrip (afterFirstSpace text)
      if !(strStartsWith payload startMarker) then (st, none)
      else
        let token := pyStrip (strDrop payload startMarker.length)
        if token = "" then (st, none)
        else
          let res := consume st.pending token now
          let st1 := { st with pending := res.2 }
          match res.1 with
          | none =>
            (st1, some (chat_id,
              "This subscribe link is invalid or expired. Please generate a new one from the website."))
          | some record =>
            let topic := pyNorm record.topic
            if topic = "" then
              (st1, some (chat_id, "Could not process this subscription token. Please try again."))
            else
              let subs' := webhookSubscribeApply st1.subs chat_id
                msg.from_username msg.from_first_name msg.from_last_name topic now
              let statuses' := insertA token
                { topic := topic, created_at := record.created_at,
                  expires_at := record.expires_at, status := "confirmed",
                  confirmed_at := some now } (pruneLinkStatus st.statuses now)
              ({ pending := res.2, statuses := statuses', subs := subs' },
               some (chat_id, "Subscribed successfully. You will now receive alerts for: " ++ topic))

/-- telegram_webhook: secret check, then the dispatch, then the single
reply send of the taken branch. -/
def telegram_webhook (sendOk : Int → String → Bool) (webhookSecret : String)
    (headerSecret : Option String) (st : Stores) (msg : TgMessage) (now : Int) :
    HandlerResult :=
  if webhookSecret ≠ "" ∧ headerSecret ≠ some webhookSecret then
    { stores := st, sent := [], outcome := .error "Invalid webhook secret" }
  else
    let step := webhookStep st msg now
    mkRes sendOk step.1 step.2

/-! ### Broadcast dispatcher -/

structure TopicBroadcastRequest where
  text : Option String
  audio_url : Option String
  caption : Option String
  disable_web_page_preview : Bool
deriving Repr, DecidableEq

/-- Python truthiness of an optional string field: absent and empty are
both falsy. -/
def strTruthy : Option String → Bool
  | none => false
  | some s => s != ""

/-- Decimal digit accumulation for int(). -/
def pyToNatDigits (acc : Nat) : List Char → Option Nat
  | [] => some acc
  | c :: cs =>
    if 48 ≤ c.toNat ∧ c.toNat ≤ 57 then pyToNatDigits (acc * 10 + (c.toNat - 48)) cs
    else none

/-- int() applied to a stored chat-id string: surrounding whitespace is
ignored, an optional sign precedes the digits.  (Digit-group underscores
accepted by Python are not modelled; the service only ever stores plain
str(int) renderings.) -/
def pyToInt (s : String) : Option Int :=
  match (pyStrip s).data with
  | [] => none
  | '-' :: [] => none
  | '-' :: c :: cs => (pyToNatDigits 0 (c :: cs)).map (fun n => -(n : Int))
  | '+' :: [] => none
  | '+' :: c :: cs => (pyToNatDigits 0 (c :: cs)).map (fun n => (n : Int))
  | cs => (pyToNatDigits 0 cs).map (fun n => (n : Int))

structure NotifyResult where
  topic : String
  subscriber_count : Nat
  delivered : Nat
  failed : List Int
deriving Repr, DecidableEq

/-- One iteration of the notify loop: attempted gateway calls in order and
whether every requested part succeeded for this chat.  The per-chat error
detail string accompanying a failure is environment-supplied exception
text and is not modelled. -/
def notifyChat (msgOk audioOk : Int → Bool) (body : TopicBroadcastRequest) (cid : Int) :
    Bool × List (String × Int) :=
  if strTruthy body.text then
    if msgOk cid then
      if strTruthy body.audio_url then
        (audioOk cid, [("sendMessage", cid), ("sendAudio", cid)])
      else (true, [("sendMessage", cid)])
    else (false, [("sendMessage", cid)])
  else
    if strTruthy body.audio_url then (audioOk cid, [("sendAudio", cid)])
    else (true, [])

/-- The notify loop over all subscriber chat ids: delivered count, failed
chat ids in order, attempted gateway calls in order. -/
def notifyLoop (msgOk audioOk : Int → Bool) (body : TopicBroadcastRequest) :
    List Int → Nat × List Int × List (String × Int)
  | [] => (0, [], [])
  | cid :: rest =>
    let r := notifyChat msgOk audioOk body cid
    let acc := notifyLoop msgOk audioOk body rest
    if r.1 then (acc.1 + 1, acc.2.1, r.2 ++ acc.2.2)
    else (acc.1, cid :: acc.2.1, r.2 ++ acc.2.2)

/-- notify_topic_subscribers.  msgOk/audioOk model the success of each
outbound Telegram API call. -/
def notify_topic_subscribers (msgOk audioOk : Int → Bool) (subs : Subs) (topic : String)
    (body : TopicBroadcastRequest) : Except String (NotifyResult × List (String × Int)) :=
  match sanitizeTopic topic with
  | none => .error "Invalid topic format"
  | some clean =>
    if !(strTruthy body.text) && !(strTruthy body.audio_url) then
      .error "At least one of text or audio_url is required"
    else
      let idStrs := (lookupA clean subs.topics).getD []
      match idStrs.mapM pyToInt with
      | none => .error "invalid chat id in store"
      | some chat_ids =>
        let res := notifyLoop msgOk audioOk body chat_ids
        .ok ({ topic := clean, subscriber_count := chat_ids.length,
               delivered := res.1, failed := res.2.1 }, res.2.2)

/-! ### The dual-index invariant and the three subscription mutations -/

def chatRecTopics (subs : Subs) (ck : String) : List String :=
  ((lookupA ck subs.chats).map ChatRecord.topics).getD []

def topicIdxIds (subs : Subs) (t : String) : List String :=
  (lookupA t subs.topics).getD []

/-- The spec's invariant: t ∈ chats[c].topics ⟺ c ∈ topics[t]. -/
def DualInvariant (subs : Subs) : Prop :=
  ∀ ck t, t ∈ chatRecTopics subs ck ↔ ck ∈ topicIdxIds subs t

/-- A stored topic string as every flow of the program writes it:
normalization is the identity and it is nonempty. -/
def TopicClean (t : String) : Prop := pyNorm t = t ∧ t ≠ ""

/-- Well-formedness of the subscriptions document: unique topic keys (a
Python dict) and normalized nonempty topic strings in every chat record. -/
def WellFormed (subs : Subs) : Prop :=
  NodupKeysA subs.topics ∧ ∀ p ∈ subs.chats, ∀ t ∈ p.2.topics, TopicClean t

/-- The three subscription mutations of the webhook processor, with the
guards under which each reaches its store write. -/
inductive SubsMutation where
  | confirmSubscribe (username first_name last_name : Option String) (rawTopic : String)
  | unsubscribeOne (rawTopic : String)
  | unsubscribeAll

/-- Apply a mutation exactly as the corresponding webhook branch does. -/
def applyMutation (subs : Subs) (chat_id : Int) (now : Int) : SubsMutation → Subs
  | .confirmSubscribe u f l raw =>
    let topic := pyNorm raw
    if topic = "" then subs else webhookSubscribeApply subs chat_id u f l topic now
  | .unsubscribeOne raw =>
    match sanitizeTopic (pyStrip raw) with
    | none => subs
    | some target =>
      let tfc := chatTopicsOf subs chat_id
      if target ∈ tfc then
        saveChatTopics subs chat_id (tfc.filter (fun t => t != target)) now
      else subs
  | .unsubscribeAll =>
    let tfc := chatTopicsOf subs chat_id
    if !tfc.isEmpty then saveChatTopics subs chat_id [] now else subs

/-! ### Helper lemmas about the store primitives -/

theorem mem_of_lookupA_eq_some {α : Type} {k : String} {v : α} {l : List (String × α)}
    (h : lookupA k l = some v) : (k, v) ∈ l := by
  induction l with
  | nil => simp [lookupA] at h
  | cons p rest ih =>
    by_cases hp : p.1 = k
    · rw [lookupA, if_pos hp] at h
      have : p = (k, v) := by
        cases p
        simp at hp h
        simp [hp, h]
      rw [← this]
      exact List.mem_cons_self _ _
    · rw [lookupA, if_neg hp] at h
      exact List.mem_cons_of_mem _ (ih h)

theorem mem_filter_bne {l : List String} {t x : String} :
    t ∈ l.filter (fun c => c != x) ↔ t ∈ l ∧ t ≠ x := by
  rw [List.mem_filter]
  simp [bne_iff_ne]

theorem strMk_eq_empty_iff {l : List Char} : String.mk l = "" ↔ l = [] := by
  constructor
  · intro h
    have h2 := congrArg String.data h
    simpa using h2
  · intro h
    rw [h]

theorem pyStrip_data (s : String) : (pyStrip s).data = pyStripList s.data := rfl

theorem pyNorm_eq_empty_iff (s : String) : pyNorm s = "" ↔ pyStrip s = "" := by
  unfold pyNorm pyLower
  rw [strMk_eq_empty_iff, List.map_eq_nil_iff, pyStrip_data]
  constructor
  · intro h
    unfold pyStrip
    rw [h]
  · intro h
    have := congrArg String.data h
    rw [pyStrip_data] at this
    simpa using this

/-- A clean topic is fixed by strip alone. -/
theorem topicClean_strip {t : String} (h : TopicClean t) : pyStrip t = t := by
  rcases h with ⟨hn, _⟩
  conv_lhs => rw [← hn]
  unfold pyNorm
  rw [pyStrip_pyLower, pyStrip_pyStrip]
  exact hn

/-- Every element chatTopicsOf returns is clean. -/
theorem topicClean_of_mem_chatTopicsOf {subs : Subs} {chat_id : Int} {t : String}
    (h : t ∈ chatTopicsOf subs chat_id) : TopicClean t := by
  unfold chatTopicsOf at h
  cases hl : lookupA (toString chat_id) subs.chats with
  | none => rw [hl] at h; simp at h
  | some r =>
    rw [hl] at h
    rw [mem_sortDedup] at h
    rcases List.mem_map.mp h with ⟨u, hu, hmap⟩
    rcases List.mem_filter.mp hu with ⟨_, hne⟩
    have hne' : pyStrip u ≠ "" := by simpa [bne_iff_ne] using hne
    constructor
    · rw [← hmap]
      exact pyNorm_pyNorm u
    · rw [← hmap]
      intro hempty
      exact hne' ((pyNorm_eq_empty_iff u).mp hempty)

/-- On a well-formed store, normalization inside _chat_topics is the
identity: membership agrees with the raw chat record. -/
theorem mem_chatTopicsOf_iff {subs : Subs} {chat_id : Int} {t : String}
    (hwf : ∀ p ∈ subs.chats, ∀ u ∈ p.2.topics, TopicClean u) :
    t ∈ chatTopicsOf subs chat_id ↔ t ∈ chatRecTopics subs (toString chat_id) := by
  unfold chatTopicsOf chatRecTopics
  cases hl : lookupA (toString chat_id) subs.chats with
  | none => simp
  | some r =>
    have hcl : ∀ u ∈ r.topics, TopicClean u :=
      hwf (toString chat_id, r) (mem_of_lookupA_eq_some hl)
    rw [mem_sortDedup]
    constructor
    · intro h
      rcases List.mem_map.mp h with ⟨u, hu, hmap⟩
      rcases List.mem_filter.mp hu with ⟨humem, _⟩
      rw [← hmap, (hcl u humem).1]
      exact humem
    · intro h
      refine List.mem_map.mpr ⟨t, List.mem_filter.mpr ⟨h, ?_⟩, (hcl t h).1⟩
      have hs : pyStrip t = t := topicClean_strip (hcl t h)
      simp [bne_iff_ne, hs]
      exact (hcl t h).2

theorem lookupA_mapRemoval (chatKey t : String) (l : List (String × List String)) :
    lookupA t (l.map (fun p => (p.1, sortDedup (p.2.filter (fun cid => cid != chatKey))))) =
      (lookupA t l).map (fun ids => sortDedup (ids.filter (fun cid => cid != chatKey))) := by
  induction l with
  | nil => rfl
  | cons p rest ih =>
    by_cases hp : p.1 = t
    · simp [lookupA, hp]
    · simp [lookupA, hp, ih]

theorem nodupKeysA_mapRemoval (chatKey : String) {l : List (String × List String)}
    (h : NodupKeysA l) :
    NodupKeysA (l.map (fun p => (p.1, sortDedup (p.2.filter (fun cid => cid != chatKey))))) := by
  unfold NodupKeysA keysA at h ⊢
  rw [List.map_map]
  have he : (Prod.fst ∘ fun p : String × List String =>
      (p.1, sortDedup (p.2.filter (fun cid => cid != chatKey)))) = Prod.fst := by
    funext p
    rfl
  rw [he]
  exact h

/-- The removal pass of _save_chat_topics, characterised by lookup. -/
theorem lookupA_removalPass {chatKey : String} {tix : List (String × List String)}
    (hnd : NodupKeysA tix) (t : String) :
    lookupA t (removalPass chatKey tix) =
      match lookupA t tix with
      | none => none
      | some ids =>
        if (sortDedup (ids.filter (fun cid => cid != chatKey))).isEmpty then none
        else some (sortDedup (ids.filter (fun cid => cid != chatKey))) := by
  unfold removalPass
  cases hl : lookupA t tix with
  | none =>
    have hm : lookupA t (tix.map
        (fun p => (p.1, sortDedup (p.2.filter (fun cid => cid != chatKey))))) = none := by
      rw [lookupA_mapRemoval, hl]
      rfl
    exact lookupA_filter_of_none hm
  | some ids =>
    have hm : lookupA t (tix.map
        (fun p => (p.1, sortDedup (p.2.filter (fun cid => cid != chatKey))))) =
        some (sortDedup (ids.filter (fun cid => cid != chatKey))) := by
      rw [lookupA_mapRemoval, hl]
      rfl
    by_cases he : (sortDedup (ids.filter (fun cid => cid != chatKey))).isEmpty = true
    · have hres := lookupA_filter_of_dropped
        (q := fun p : String × List String => !p.2.isEmpty)
        (nodupKeysA_mapRemoval chatKey hnd) hm
        (show ((fun p : String × List String => !p.2.isEmpty)
          (t, sortDedup (ids.filter (fun cid => cid != chatKey)))) = false by
          simp only []
          rw [he]
          rfl)
      rw [hres]
      simp [he]
    · have he2 : (sortDedup (ids.filter (fun cid => cid != chatKey))).isEmpty = false :=
        Bool.eq_false_iff.mpr he
      have hres := lookupA_filter_of_kept
        (q := fun p : String × List String => !p.2.isEmpty) hm
        (show ((fun p : String × List String => !p.2.isEmpty)
          (t, sortDedup (ids.filter (fun cid => cid != chatKey)))) = true by
          simp only []
          rw [he2]
          rfl)
      rw [hres]
      simp [he2]

theorem addChatKey_cons (chatKey u : String) (rest : List String)
    (tix : List (String × List String)) :
    addChatKey chatKey (u :: rest) tix =
      addChatKey chatKey rest
        (insertA u (sortDedup (chatKey :: (lookupA u tix).getD [])) tix) := by
  unfold addChatKey
  rw [List.foldl_cons]

theorem lookupA_addChatKey_not_mem {chatKey t : String} {ts : List String}
    (ht : t ∉ ts) (tix : List (String × List String)) :
    lookupA t (addChatKey chatKey ts tix) = lookupA t tix := by
  induction ts generalizing tix with
  | nil => rfl
  | cons u rest ih =>
    have htu : t ≠ u := fun hh => ht (hh ▸ List.mem_cons_self u rest)
    have htr : t ∉ rest := fun hh => ht (List.mem_cons_of_mem u hh)
    rw [addChatKey_cons, ih htr, lookupA_insertA_ne _ _ htu]

theorem chatKey_mem_addChatKey {chatKey t : String} {ts : List String}
    (ht : t ∈ ts) (tix : List (String × List String)) :
    chatKey ∈ (lookupA t (addChatKey chatKey ts tix)).getD [] := by
  induction ts generalizing tix with
  | nil => cases ht
  | cons u rest ih =>
    rw [addChatKey_cons]
    by_cases hr : t ∈ rest
    · exact ih hr _
    · have htu : t = u := by
        rcases List.mem_cons.mp ht with h1 | h1
        · exact h1
        · exact absurd h1 hr
      subst htu
      rw [lookupA_addChatKey_not_mem hr, lookupA_insertA_self]
      simp only [Option.getD_some]
      rw [mem_sortDedup]
      exact List.mem_cons_self _ _

theorem mem_addChatKey_other {chatKey ck : String} (hck : ck ≠ chatKey) (t : String)
    (ts : List String) (tix : List (String × List String)) :
    (ck ∈ (lookupA t (addChatKey chatKey ts tix)).getD []) ↔
      ck ∈ (lookupA t tix).getD [] := by
  induction ts generalizing tix with
  | nil => exact Iff.rfl
  | cons u rest ih =>
    rw [addChatKey_cons, ih]
    by_cases htu : t = u
    · subst htu
      rw [lookupA_insertA_self]
      simp only [Option.getD_some]
      rw [mem_sortDedup]
      simp [hck]
    · rw [lookupA_insertA_ne _ _ htu]

theorem nodupKeysA_addChatKey {chatKey : String} (ts : List String)
    {tix : List (String × List String)} (h : NodupKeysA tix) :
    NodupKeysA (addChatKey chatKey ts tix) := by
  induction ts generalizing tix with
  | nil => exact h
  | cons u rest ih =>
    rw [addChatKey_cons]
    exact ih (nodupKeysA_insertA h)

theorem nodupKeysA_removalPass (chatKey : String) {tix : List (String × List String)}
    (h : NodupKeysA tix) : NodupKeysA (removalPass chatKey tix) :=
  nodupKeysA_filter (nodupKeysA_mapRemoval chatKey h)

theorem mem_sortDedup_filter_ne {ids : List String} {ck chatKey : String}
    (hck : ck ≠ chatKey) :
    ck ∈ sortDedup (ids.filter (fun cid => cid != chatKey)) ↔ ck ∈ ids := by
  rw [mem_sortDedup, mem_filter_bne]
  simp [hck]

theorem chatKey_not_mem_sortDedup_filter {ids : List String} {chatKey : String} :
    chatKey ∉ sortDedup (ids.filter (fun cid => cid != chatKey)) := by
  rw [mem_sortDedup, mem_filter_bne]
  simp

/-! ### Projections of the two subscription writes -/

theorem saveChatTopics_chats (subs : Subs) (chat_id : Int) (tfc : List String) (now : Int) :
    (saveChatTopics subs chat_id tfc now).chats =
      insertA (toString chat_id)
        { chat_id := chat_id
          username := (lookupA (toString chat_id) subs.chats).bind ChatRecord.username
          first_name := (lookupA (toString chat_id) subs.chats).bind ChatRecord.first_name
          last_name := (lookupA (toString chat_id) subs.chats).bind ChatRecord.last_name
          topics := sortDedup tfc
          updated_at := now } subs.chats := rfl

theorem saveChatTopics_topics (subs : Subs) (chat_id : Int) (tfc : List String) (now : Int) :
    (saveChatTopics subs chat_id tfc now).topics =
      addChatKey (toString chat_id) tfc (removalPass (toString chat_id) subs.topics) := rfl

theorem webhookSubscribeApply_chats (subs : Subs) (chat_id : Int)
    (u f l : Option String) (topic : String) (now : Int) :
    (webhookSubscribeApply subs chat_id u f l topic now).chats =
      insertA (toString chat_id)
        { chat_id := chat_id
          username := u
          first_name := f
          last_name := l
          topics := sortDedup (topic :: chatTopicsOf subs chat_id)
          updated_at := now } subs.chats := rfl

theorem webhookSubscribeApply_topics (subs : Subs) (chat_id : Int)
    (u f l : Option String) (topic : String) (now : Int) :
    (webhookSubscribeApply subs chat_id u f l topic now).topics =
      insertA topic (sortDedup (toString chat_id :: (lookupA topic subs.topics).getD []))
        subs.topics := rfl

/-! ### Invariant preservation -/

theorem saveChatTopics_dualInvariant {subs : Subs} {chat_id : Int} {tfc : List String}
    {now : Int} (hnd : NodupKeysA subs.topics) (hinv : DualInvariant subs) :
    DualInvariant (saveChatTopics subs chat_id tfc now) := by
  intro ck t
  unfold chatRecTopics topicIdxIds
  rw [saveChatTopics_chats, saveChatTopics_topics]
  by_cases hck : ck = toString chat_id
  · subst hck
    rw [lookupA_insertA_self]
    simp only [Option.map_some', Option.getD_some]
    by_cases ht : t ∈ tfc
    · exact iff_of_true (mem_sortDedup.mpr ht) (chatKey_mem_addChatKey ht _)
    · refine iff_of_false (fun hh => ht (mem_sortDedup.mp hh)) ?_
      rw [lookupA_addChatKey_not_mem ht, lookupA_removalPass hnd]
      cases hl : lookupA t subs.topics with
      | none => simp
      | some ids =>
        simp only []
        by_cases he :
            (sortDedup (ids.filter (fun cid => cid != toString chat_id))).isEmpty = true
        · simp [he]
        · rw [if_neg he]
          simp only [Option.getD_some]
          exact chatKey_not_mem_sortDedup_filter
  · rw [lookupA_insertA_ne _ _ hck]
    have hR : (ck ∈ (lookupA t (addChatKey (toString chat_id) tfc
        (removalPass (toString chat_id) subs.topics))).getD []) ↔
        ck ∈ (lookupA t subs.topics).getD [] := by
      rw [mem_addChatKey_other hck, lookupA_removalPass hnd]
      cases hl : lookupA t subs.topics with
      | none => simp
      | some ids =>
        simp only [Option.getD_some]
        by_cases he :
            (sortDedup (ids.filter (fun cid => cid != toString chat_id))).isEmpty = true
        · rw [if_pos he]
          have hnotin : ck ∉ ids := by
            intro hin
            have hmem : ck ∈ sortDedup (ids.filter (fun cid => cid != toString chat_id)) :=
              (mem_sortDedup_filter_ne hck).mpr hin
            rw [List.isEmpty_iff] at he
            rw [he] at hmem
            cases hmem
          simp [hnotin]
        · rw [if_neg he]
          simp only [Option.getD_some]
          exact mem_sortDedup_filter_ne hck
    exact (hinv ck t).trans hR.symm

theorem webhookSubscribeApply_dualInvariant {subs : Subs} {chat_id : Int}
    {u f l : Option String} {topic : String} {now : Int}
    (hwf : WellFormed subs) (hinv : DualInvariant subs) :
    DualInvariant (webhookSubscribeApply subs chat_id u f l topic now) := by
  intro ck t
  unfold chatRecTopics topicIdxIds
  rw [webhookSubscribeApply_chats, webhookSubscribeApply_topics]
  by_cases hck : ck = toString chat_id
  · subst hck
    rw [lookupA_insertA_self]
    simp only [Option.map_some', Option.getD_some]
    by_cases htt : t = topic
    · subst htt
      rw [lookupA_insertA_self]
      refine iff_of_true (mem_sortDedup.mpr (List.mem_cons_self _ _)) ?_
      simp only [Option.getD_some]
      exact mem_sortDedup.mpr (List.mem_cons_self _ _)
    · rw [lookupA_insertA_ne _ _ htt]
      have hL : t ∈ sortDedup (topic :: chatTopicsOf subs chat_id) ↔
          t ∈ chatRecTopics subs (toString chat_id) := by
        rw [mem_sortDedup, List.mem_cons]
        rw [mem_chatTopicsOf_iff hwf.2]
        simp [htt]
      rw [hL]
      exact hinv (toString chat_id) t
  · rw [lookupA_insertA_ne _ _ hck]
    by_cases htt : t = topic
    · subst htt
      rw [lookupA_insertA_self]
      simp only [Option.getD_some]
      rw [mem_sortDedup, List.mem_cons]
      have : ¬ ck = toString chat_id := hck
      simp only [this, false_or]
      exact hinv ck t
    · rw [lookupA_insertA_ne _ _ htt]
      exact hinv ck t

/-! ### Well-formedness preservation -/

theorem saveChatTopics_wellFormed {subs : Subs} {chat_id : Int} {tfc : List String}
    {now : Int} (hwf : WellFormed subs) (hcl : ∀ t ∈ tfc, TopicClean t) :
    WellFormed (saveChatTopics subs chat_id tfc now) := by
  constructor
  · rw [saveChatTopics_topics]
    exact nodupKeysA_addChatKey _ (nodupKeysA_removalPass _ hwf.1)
  · intro p hp t ht
    rw [saveChatTopics_chats] at hp
    rcases mem_insertA hp with h1 | h1
    · exact hwf.2 p h1 t ht
    · rw [h1] at ht
      exact hcl t (mem_sortDedup.mp ht)

theorem webhookSubscribeApply_wellFormed {subs : Subs} {chat_id : Int}
    {u f l : Option String} {topic : String} {now : Int}
    (hwf : WellFormed subs) (htop : TopicClean topic) :
    WellFormed (webhookSubscribeApply subs chat_id u f l topic now) := by
  constructor
  · rw [webhookSubscribeApply_topics]
    exact nodupKeysA_insertA hwf.1
  · intro p hp t ht
    rw [webhookSubscribeApply_chats] at hp
    rcases mem_insertA hp with h1 | h1
    · exact hwf.2 p h1 t ht
    · rw [h1] at ht
      rcases List.mem_cons.mp (mem_sortDedup.mp ht) with h2 | h2
      · rw [h2]; exact htop
      · exact topicClean_of_mem_chatTopicsOf h2

/-! ### Claim C1 -/

/-- C1, amended: on a well-formed subscriptions snapshot (unique topic
keys, normalized nonempty stored topic strings) the dual-index invariant
and well-formedness are preserved by token-confirmation subscribe,
unsubscribe-one and unsubscribe-all. -/
theorem C1_mutations_preserve_dual_invariant (subs : Subs) (chat_id : Int) (now : Int)
    (m : SubsMutation) (hwf : WellFormed subs) (hinv : DualInvariant subs) :
    DualInvariant (applyMutation subs chat_id now m) ∧
      WellFormed (applyMutation subs chat_id now m) := by
  cases m with
  | confirmSubscribe u f l raw =>
    simp only [applyMutation]
    by_cases h : pyNorm raw = ""
    · rw [if_pos h]
      exact ⟨hinv, hwf⟩
    · rw [if_neg h]
      have htop : TopicClean (pyNorm raw) := ⟨pyNorm_pyNorm raw, h⟩
      exact ⟨webhookSubscribeApply_dualInvariant hwf hinv,
             webhookSubscribeApply_wellFormed hwf htop⟩
  | unsubscribeOne raw =>
    simp only [applyMutation]
    split
    · exact ⟨hinv, hwf⟩
    · next target hsan =>
      split
      · next hmem =>
        have hcl : ∀ t ∈ (chatTopicsOf subs chat_id).filter (fun x => x != target),
            TopicClean t := by
          intro t ht
          exact topicClean_of_mem_chatTopicsOf (List.mem_of_mem_filter ht)
        exact ⟨saveChatTopics_dualInvariant hwf.1 hinv, saveChatTopics_wellFormed hwf hcl⟩
      · next hmem => exact ⟨hinv, hwf⟩
  | unsubscribeAll =>
    simp only [applyMutation]
    by_cases h : (!(chatTopicsOf subs chat_id).isEmpty) = true
    · rw [if_pos h]
      have hcl : ∀ t ∈ ([] : List String), TopicClean t := by
        intro t ht
        cases ht
      exact ⟨saveChatTopics_dualInvariant hwf.1 hinv, saveChatTopics_wellFormed hwf hcl⟩
    · rw [if_neg h]
      exact ⟨hinv, hwf⟩

/-- A snapshot satisfying the dual-index invariant whose stored topic
string is not normalized. -/
def subsDirty : Subs :=
  { chats := [("5",
      { chat_id := 5, username := none, first_name := none, last_name := none,
        topics := ["FOO"], updated_at := 0 })],
    topics := [("FOO", ["5"])] }

/-- C1 as frozen is false: the invariant alone is not preserved by the
token-confirmation subscribe, because the webhook path rewrites the chat
record through the normalizing _chat_topics but updates only the new
topic's index entry.  On a snapshot storing the topic "FOO" the chat
record is rewritten to contain "foo" while the index keeps only "FOO". -/
theorem C1_counterexample :
    DualInvariant subsDirty ∧
      ¬ DualInvariant
        (applyMutation subsDirty 5 0 (SubsMutation.confirmSubscribe none none none "bar")) := by
  constructor
  · intro ck t
    unfold subsDirty chatRecTopics topicIdxIds
    simp only [lookupA]
    by_cases h5 : "5" = ck
    · subst h5
      by_cases hF : "FOO" = t
      · subst hF
        decide
      · have hF2 : ¬ (t = "FOO") := fun hh => hF hh.symm
        simp [hF, hF2]
    · have h52 : ¬ (ck = "5") := fun hh => h5 hh.symm
      by_cases hF : "FOO" = t
      · subst hF
        simp [h5, h52]
      · simp [h5, hF]
  · intro h
    exact absurd (h "5" "foo") (by decide)

/-- Witness for the amended C1 at a concrete store and mutation. -/
theorem C1_witness :
    DualInvariant (applyMutation { chats := [], topics := [] } 5 0
        (SubsMutation.confirmSubscribe none none none " AI ")) ∧
      WellFormed (applyMutation { chats := [], topics := [] } 5 0
        (SubsMutation.confirmSubscribe none none none " AI ")) :=
  C1_mutations_preserve_dual_invariant { chats := [], topics := [] } 5 0
    (SubsMutation.confirmSubscribe none none none " AI ")
    (by
      constructor
      · simp [NodupKeysA, keysA]
      · intro p hp
        cases hp)
    (by
      intro ck t
      simp [chatRecTopics, topicIdxIds, lookupA])

/-! ### Claim C2 -/

theorem consume_fst (pending : List (String × PendingLink)) (token : String) (now : Int) :
    (consume pending token now).1 = lookupA token (prunePending pending now) := rfl

theorem consume_snd (pending : List (String × PendingLink)) (token : String) (now : Int) :
    (consume pending token now).2 = eraseA token (prunePending pending now) := rfl

/-- C2 as frozen is false: a failing gateway send inside command
processing raises out of the handler (RuntimeError from _send_message is
never caught), so the platform does not receive the success response. -/
theorem C2_counterexample :
    (telegram_webhook (fun _ _ => false) "" none
        { pending := [], statuses := [], subs := { chats := [], topics := [] } }
        { text := some "/start", chat_id := some 5, from_username := none,
          from_first_name := none, from_last_name := none } 0).outcome =
      Except.error "Telegram API send failure" := by
  rfl

/-- C2, amended: when the secret check passes and every gateway send
succeeds, the handler returns the success response for every well-formed
event; a failing send instead propagates as an exception. -/
theorem C2_webhook_always_ok (sendOk : Int → String → Bool) (webhookSecret : String)
    (headerSecret : Option String) (st : Stores) (msg : TgMessage) (now : Int)
    (hsecret : webhookSecret = "" ∨ headerSecret = some webhookSecret)
    (hsend : ∀ c m, sendOk c m = true) :
    (telegram_webhook sendOk webhookSecret headerSecret st msg now).outcome =
      Except.ok () := by
  unfold telegram_webhook
  have hcond : ¬ (webhookSecret ≠ "" ∧ headerSecret ≠ some webhookSecret) := by
    rcases hsecret with h | h
    · intro hc
      exact hc.1 h
    · intro hc
      exact hc.2 h
  rw [if_neg hcond]
  show (mkRes sendOk (webhookStep st msg now).1 (webhookStep st msg now).2).outcome =
    Except.ok ()
  cases h2 : (webhookStep st msg now).2 with
  | none => rfl
  | some p =>
    obtain ⟨c, m⟩ := p
    simp [mkRes, hsend c m]

theorem C2_witness :
    (telegram_webhook (fun _ _ => true) "" none
        { pending := [], statuses := [], subs := { chats := [], topics := [] } }
        { text := some "/start", chat_id := some 5, from_username := none,
          from_first_name := none, from_last_name := none } 0).outcome =
      Except.ok () :=
  C2_webhook_always_ok (fun _ _ => true) "" none
    { pending := [], statuses := [], subs := { chats := [], topics := [] } }
    { text := some "/start", chat_id := some 5, from_username := none,
      from_first_name := none, from_last_name := none } 0
    (Or.inl rfl) (fun _ _ => rfl)

/-! ### Claim C3 -/

/-- C3: a token inserted by create_subscription_link is consumed exactly
once: a timely first consume returns the record and removes it from the
written-back document; a second consume of the same token returns none at
any later (indeed any) time. -/
theorem C3_token_consumed_exactly_once (pending : List (String × PendingLink))
    (token topic : String) (now0 now1 now2 : Int)
    (h1 : now1 < now0 + LINK_TTL_SECONDS) :
    (consume (createLinkPending pending token topic now0) token now1).1 =
        some { topic := topic, created_at := now0, expires_at := now0 + LINK_TTL_SECONDS } ∧
    lookupA token (consume (createLinkPending pending token topic now0) token now1).2 =
        none ∧
    (consume (consume (createLinkPending pending token topic now0) token now1).2
        token now2).1 = none := by
  refine ⟨?_, ?_, ?_⟩
  · rw [consume_fst]
    unfold createLinkPending prunePending
    refine lookupA_filter_of_kept (lookupA_insertA_self _ _ _) ?_
    exact decide_eq_true h1
  · rw [consume_snd]
    exact lookupA_eraseA_self _ _
  · rw [consume_fst, consume_snd]
    unfold prunePending
    exact lookupA_filter_of_none (lookupA_eraseA_self _ _)

theorem C3_witness :
    (consume (createLinkPending [] "t" "ai" 0) "t" 10).1 =
        some { topic := "ai", created_at := 0, expires_at := 0 + LINK_TTL_SECONDS } ∧
    lookupA "t" (consume (createLinkPending [] "t" "ai" 0) "t" 10).2 = none ∧
    (consume (consume (createLinkPending [] "t" "ai" 0) "t" 10).2 "t" 999).1 = none :=
  C3_token_consumed_exactly_once [] "t" "ai" 0 10 999 (by decide)

/-! ### Claim C6 -/

/-- C6: consume never returns a record whose expires_at has passed, even
when no prune ran beforehand: the read-prune step drops it. -/
theorem C6_expired_consume_none (pending : List (String × PendingLink)) (token : String)
    (now : Int) (r : PendingLink) (hnd : NodupKeysA pending)
    (hlook : lookupA token pending = some r) (hexp : r.expires_at ≤ now) :
    (consume pending token now).1 = none := by
  rw [consume_fst]
  unfold prunePending
  refine lookupA_filter_of_dropped (q := fun p => decide (p.2.expires_at > now))
    hnd hlook ?_
  simp only [decide_eq_false_iff_not]
  omega

theorem C6_witness :
    (consume [("t", { topic := "ai", created_at := 0, expires_at := 10 })] "t" 20).1 =
      none :=
  C6_expired_consume_none [("t", { topic := "ai", created_at := 0, expires_at := 10 })]
    "t" 20 { topic := "ai", created_at := 0, expires_at := 10 }
    (by simp [NodupKeysA, keysA]) (by rfl) (by decide)

/-! ### Claim C4 -/

/-- C4 as frozen is false: for a pending record past its expiry the
endpoint returns status "expired" but persists only the pruned snapshot,
in which the record still carries status "pending". -/
theorem C4_counterexample :
    getSubscriptionLinkStatus
        [("tok1", { topic := "ai-tools", created_at := 0, expires_at := 10,
                    status := "pending", confirmed_at := none })] "subscribe_tok1" 20 =
      Except.ok
        ([("tok1", { topic := "ai-tools", created_at := 0, expires_at := 10,
                     status := "pending", confirmed_at := none })],
         LinkStatusView.record "expired" "ai-tools" 10 0 none) := by
  rfl

/-- C4, amended: for a pending record with expires_at ≤ now the endpoint
reports status "expired" but the document it persists is the pruned
snapshot, in which the record keeps its stored "pending" status: the
transition is recomputed on every read, not persisted. -/
theorem C4_expired_reported_not_persisted (statuses : List (String × LinkStatusRec))
    (start_param token : String) (now : Int) (r : LinkStatusRec)
    (hsp : strStartsWith start_param startMarker = true)
    (htok : pyStrip (strDrop start_param startMarker.length) = token)
    (hne : token ≠ "")
    (hlook : lookupA token (pruneLinkStatus statuses now) = some r)
    (hst : pyNorm r.status = "pending")
    (hexp : r.expires_at ≤ now) :
    getSubscriptionLinkStatus statuses start_param now =
      Except.ok (pruneLinkStatus statuses now,
        LinkStatusView.record "expired" (pyNorm r.topic) r.expires_at
          (max 0 (r.expires_at - now)) none) ∧
    lookupA token (pruneLinkStatus statuses now) = some r := by
  refine ⟨?_, hlook⟩
  unfold getSubscriptionLinkStatus
  rw [hsp]
  simp only [Bool.not_true, Bool.false_eq_true, if_false, htok]
  rw [if_neg hne, hlook]
  simp only [hst]
  rw [if_pos ⟨trivial, hexp⟩]
  simp

theorem C4_witness :
    getSubscriptionLinkStatus
        [("tok1", { topic := "ai-tools", created_at := 0, expires_at := 10,
                    status := "pending", confirmed_at := none })] "subscribe_tok1" 20 =
      Except.ok
        (pruneLinkStatus
          [("tok1", { topic := "ai-tools", created_at := 0, expires_at := 10,
                      status := "pending", confirmed_at := none })] 20,
         LinkStatusView.record "expired"
           (pyNorm ({ topic := "ai-tools", created_at := 0, expires_at := 10,
                      status := "pending", confirmed_at := none } : LinkStatusRec).topic)
           10 (max 0 (10 - 20)) none) ∧
    lookupA "tok1"
        (pruneLinkStatus
          [("tok1", { topic := "ai-tools", created_at := 0, expires_at := 10,
                      status := "pending", confirmed_at := none })] 20) =
      some { topic := "ai-tools", created_at := 0, expires_at := 10,
             status := "pending", confirmed_at := none } :=
  C4_expired_reported_not_persisted
    [("tok1", { topic := "ai-tools", created_at := 0, expires_at := 10,
                status := "pending", confirmed_at := none })]
    "subscribe_tok1" "tok1" 20
    { topic := "ai-tools", created_at := 0, expires_at := 10,
      status := "pending", confirmed_at := none }
    (by decide) (by decide) (by decide) (by rfl) (by decide) (by decide)

/-! ### Claim C5 -/

/-- The grammar exactly as the claim words it: first character a lowercase
letter or digit, followed by 2 to 49 characters from the class, total
normalized length 3 to 50. -/
def ClaimedTopicGrammar (raw : String) : Prop :=
  ∃ c cs, (pyNorm raw).data = c :: cs ∧ isLowerAlnum c = true ∧
    2 ≤ cs.length ∧ cs.length ≤ 49 ∧ ∀ d ∈ cs, isTopicChar d = true

/-- The grammar the code implements: 1 to 49 continuation characters,
total normalized length 2 to 50. -/
def AmendedTopicGrammar (raw : String) : Prop :=
  ∃ c cs, (pyNorm raw).data = c :: cs ∧ isLowerAlnum c = true ∧
    1 ≤ cs.length ∧ cs.length ≤ 49 ∧ ∀ d ∈ cs, isTopicChar d = true

/-- C5 as frozen is false: TOPIC_PATTERN is [a-z0-9][a-z0-9-]{1,49}, so
the normalized two-character topic "ab" is accepted although the claimed
grammar (total length 3 to 50) rejects it. -/
theorem C5_counterexample :
    (sanitizeTopic "ab").isSome = true ∧ ¬ ClaimedTopicGrammar "ab" := by
  constructor
  · rfl
  · rintro ⟨c, cs, hd, _, h2, _, _⟩
    have hab : (pyNorm "ab").data = ['a', 'b'] := by rfl
    rw [hab] at hd
    injection hd with hc hcs
    rw [← hcs] at h2
    simp at h2

/-- C5, amended: the validator accepts exactly the raw strings whose
normalization (trim then lowercase) starts with a lowercase letter or
digit followed by 1 to 49 characters from lowercase letters, digits and
hyphen — total normalized length 2 to 50. -/
theorem C5_validator_accepts_grammar (raw : String) :
    (sanitizeTopic raw).isSome = true ↔ AmendedTopicGrammar raw := by
  unfold sanitizeTopic AmendedTopicGrammar
  by_cases h : topicPatternMatch (pyNorm raw) = true
  · rw [if_pos h]
    refine iff_of_true rfl ?_
    unfold topicPatternMatch at h
    cases hd : (pyNorm raw).data with
    | nil =>
      rw [hd] at h
      simp at h
    | cons c cs =>
      rw [hd] at h
      simp only [Bool.and_eq_true, decide_eq_true_eq, List.all_eq_true] at h
      exact ⟨c, cs, rfl, h.1.1.1, h.1.1.2, h.1.2, h.2⟩
  · rw [if_neg h]
    refine iff_of_false (by simp) ?_
    rintro ⟨c, cs, hd, h1, h2, h3, h4⟩
    apply h
    unfold topicPatternMatch
    rw [hd]
    simp only [Bool.and_eq_true, decide_eq_true_eq, List.all_eq_true]
    exact ⟨⟨⟨h1, h2⟩, h3⟩, h4⟩

/-! ### Claim C9 -/

/-- C9: the validator is idempotent on accepted inputs: if it maps x to
the normalized topic y, it maps y to y. -/
theorem C9_validator_idempotent {x y : String} (h : sanitizeTopic x = some y) :
    sanitizeTopic y = some y := by
  unfold sanitizeTopic at h ⊢
  by_cases hp : topicPatternMatch (pyNorm x) = true
  · rw [if_pos hp] at h
    injection h with h1
    have hy : pyNorm y = y := by rw [← h1, pyNorm_pyNorm]
    rw [hy, ← h1, if_pos hp]
  · rw [if_neg hp] at h
    exact absurd h (by simp)

theorem C9_witness : sanitizeTopic "ai-tools" = some "ai-tools" :=
  C9_validator_idempotent (show sanitizeTopic " AI-Tools " = some "ai-tools" from rfl)

/-! ### Claim C7 -/

/-- C7 as frozen is false: the failed-consume path still rewrites the
pending document with the pruned snapshot, so an expired entry disappears
from the document even though consumption failed. -/
theorem C7_counterexample :
    (webhookStep
        { pending := [("tok1", { topic := "ai-tools", created_at := 0, expires_at := 10 })],
          statuses := [], subs := { chats := [], topics := [] } }
        { text := some "/start subscribe_tok1", chat_id := some 5, from_username := none,
          from_first_name := none, from_last_name := none } 20).2 =
      some (5,
        "This subscribe link is invalid or expired. Please generate a new one from the website.") ∧
    (webhookStep
        { pending := [("tok1", { topic := "ai-tools", created_at := 0, expires_at := 10 })],
          statuses := [], subs := { chats := [], topics := [] } }
        { text := some "/start subscribe_tok1", chat_id := some 5, from_username := none,
          from_first_name := none, from_last_name := none } 20).1.pending ≠
      [("tok1", { topic := "ai-tools", created_at := 0, expires_at := 10 })] := by
  constructor
  · rfl
  · decide

/-- C7, amended: on a /start subscribe_token event whose token is absent
from the pruned pending document, the processor replies with the
invalid-or-expired message, leaves link-status and subscriptions
untouched, and writes back exactly the pruned pending document (expired
entries are dropped; every live entry survives). -/
theorem C7_failed_consume_only_prunes (st : Stores) (msg : TgMessage) (now : Int)
    (cid : Int) (token : String)
    (h6 : msg.chat_id = some cid)
    (h2 : strStartsWith (pyStrip (msg.text.getD "")) "/start" = true)
    (h3 : strContainsChar (pyStrip (msg.text.getD "")) ' ' = true)
    (h4 : strStartsWith (pyStrip (afterFirstSpace (pyStrip (msg.text.getD ""))))
        startMarker = true)
    (h5 : pyStrip (strDrop (pyStrip (afterFirstSpace (pyStrip (msg.text.getD ""))))
        startMarker.length) = token)
    (hne : token ≠ "")
    (h7 : lookupA token (prunePending st.pending now) = none) :
    webhookStep st msg now =
      ({ st with pending := prunePending st.pending now },
       some (cid,
         "This subscribe link is invalid or expired. Please generate a new one from the website.")) := by
  unfold webhookStep
  rw [h6]
  simp only []
  rw [h2, h3]
  simp only [Bool.not_true, Bool.or_self, Bool.false_eq_true, if_false]
  rw [h4]
  simp only [Bool.not_true, Bool.false_eq_true, if_false]
  rw [h5, if_neg hne, consume_fst, consume_snd, h7]
  simp only []
  rw [eraseA_eq_self_of_lookup_none h7]

theorem C7_witness :
    webhookStep
        { pending := [("live", { topic := "ai", created_at := 0, expires_at := 1000 })],
          statuses := [], subs := { chats := [], topics := [] } }
        { text := some "/start subscribe_gone", chat_id := some 5, from_username := none,
          from_first_name := none, from_last_name := none } 20 =
      ({ pending := prunePending
            [("live", { topic := "ai", created_at := 0, expires_at := 1000 })] 20,
          statuses := [], subs := { chats := [], topics := [] } },
       some (5,
         "This subscribe link is invalid or expired. Please generate a new one from the website.")) :=
  C7_failed_consume_only_prunes
    { pending := [("live", { topic := "ai", created_at := 0, expires_at := 1000 })],
      statuses := [], subs := { chats := [], topics := [] } }
    { text := some "/start subscribe_gone", chat_id := some 5, from_username := none,
      from_first_name := none, from_last_name := none } 20 5 "gone"
    rfl rfl rfl rfl rfl (by decide) rfl

/-! ### Claim C8 -/

/-- C8: notify on a valid topic with a payload and an empty subscriber
set returns subscriber_count 0, delivered 0, failed [] and performs no
gateway call (the attempted-call trace is empty). -/
theorem C8_notify_no_subscribers (msgOk audioOk : Int → Bool) (subs : Subs)
    (topic clean : String) (body : TopicBroadcastRequest)
    (hsan : sanitizeTopic topic = some clean)
    (hbody : strTruthy body.text = true ∨ strTruthy body.audio_url = true)
    (hempty : (lookupA clean subs.topics).getD [] = []) :
    notify_topic_subscribers msgOk audioOk subs topic body =
      Except.ok ({ topic := clean, subscriber_count := 0, delivered := 0, failed := [] },
        []) := by
  unfold notify_topic_subscribers
  rw [hsan]
  simp only []
  have hguard : (!(strTruthy body.text) && !(strTruthy body.audio_url)) = false := by
    rcases hbody with h | h <;> simp [h]
  rw [hguard]
  simp only [Bool.false_eq_true, if_false]
  rw [hempty]
  rfl

theorem C8_witness :
    notify_topic_subscribers (fun _ => true) (fun _ => true)
        { chats := [], topics := [] } "ai"
        { text := some "hello", audio_url := none, caption := none,
          disable_web_page_preview := true } =
      Except.ok ({ topic := "ai", subscriber_count := 0, delivered := 0, failed := [] },
        []) :=
  C8_notify_no_subscribers (fun _ => true) (fun _ => true)
    { chats := [], topics := [] } "ai" "ai"
    { text := some "hello", audio_url := none, caption := none,
      disable_web_page_preview := true }
    rfl (Or.inl rfl) rfl

/-! ### Claim C10 -/

theorem notifyLoop_cons (msgOk audioOk : Int → Bool) (body : TopicBroadcastRequest)
    (cid : Int) (rest : List Int) :
    notifyLoop msgOk audioOk body (cid :: rest) =
      if (notifyChat msgOk audioOk body cid).1 then
        ((notifyLoop msgOk audioOk body rest).1 + 1,
         (notifyLoop msgOk audioOk body rest).2.1,
         (notifyChat msgOk audioOk body cid).2 ++ (notifyLoop msgOk audioOk body rest).2.2)
      else
        ((notifyLoop msgOk audioOk body rest).1,
         cid :: (notifyLoop msgOk audioOk body rest).2.1,
         (notifyChat msgOk audioOk body cid).2 ++ (notifyLoop msgOk audioOk body rest).2.2) :=
  rfl

theorem notifyLoop_failed_filter (msgOk audioOk : Int → Bool)
    (body : TopicBroadcastRequest) (l : List Int) :
    (notifyLoop msgOk audioOk body l).2.1 =
      l.filter (fun cid => !(notifyChat msgOk audioOk body cid).1) := by
  induction l with
  | nil => rfl
  | cons cid rest ih =>
    rw [notifyLoop_cons]
    by_cases h : (notifyChat msgOk audioOk body cid).1 = true
    · simp [List.filter_cons, h, ih]
    · have h2 : (notifyChat msgOk audioOk body cid).1 = false := Bool.eq_false_iff.mpr h
      simp [List.filter_cons, h2, ih]

theorem notifyLoop_partition (msgOk audioOk : Int → Bool)
    (body : TopicBroadcastRequest) (l : List Int) :
    (notifyLoop msgOk audioOk body l).1 + (notifyLoop msgOk audioOk body l).2.1.length =
      l.length := by
  induction l with
  | nil => rfl
  | cons cid rest ih =>
    rw [notifyLoop_cons]
    by_cases h : (notifyChat msgOk audioOk body cid).1 = true
    · simp only [h, if_true, List.length_cons]
      omega
    · have h2 : (notifyChat msgOk audioOk body cid).1 = false := Bool.eq_false_iff.mpr h
      simp only [h2, Bool.false_eq_true, if_false, List.length_cons]
      omega

/-- C10: the notify result partitions the subscriber set: delivered plus
the number of failed entries equals subscriber_count, and with the
duplicate-free chat-id list every store write produces, each chat id
appears in failed at most once. -/
theorem C10_notify_partition (msgOk audioOk : Int → Bool) (subs : Subs)
    (topic clean : String) (body : TopicBroadcastRequest) (chat_ids : List Int)
    (hsan : sanitizeTopic topic = some clean)
    (hbody : strTruthy body.text = true ∨ strTruthy body.audio_url = true)
    (hmap : ((lookupA clean subs.topics).getD []).mapM pyToInt = some chat_ids)
    (hnd : chat_ids.Nodup) :
    ∃ res calls,
      notify_topic_subscribers msgOk audioOk subs topic body = Except.ok (res, calls) ∧
      res.delivered + res.failed.length = res.subscriber_count ∧
      res.failed.Nodup := by
  refine ⟨{ topic := clean, subscriber_count := chat_ids.length,
            delivered := (notifyLoop msgOk audioOk body chat_ids).1,
            failed := (notifyLoop msgOk audioOk body chat_ids).2.1 },
          (notifyLoop msgOk audioOk body chat_ids).2.2, ?_, ?_, ?_⟩
  · unfold notify_topic_subscribers
    rw [hsan]
    simp only []
    have hguard : (!(strTruthy body.text) && !(strTruthy body.audio_url)) = false := by
      rcases hbody with h | h <;> simp [h]
    rw [hguard]
    simp only [Bool.false_eq_true, if_false]
    rw [hmap]
  · exact notifyLoop_partition msgOk audioOk body chat_ids
  · rw [notifyLoop_failed_filter]
    exact hnd.filter _

theorem C10_witness :
    ∃ res calls,
      notify_topic_subscribers (fun _ => false) (fun _ => true)
          { chats := [], topics := [("ai", ["5", "6"])] } "ai"
          { text := some "hello", audio_url := none, caption := none,
            disable_web_page_preview := true } = Except.ok (res, calls) ∧
      res.delivered + res.failed.length = res.subscriber_count ∧
      res.failed.Nodup :=
  C10_notify_partition (fun _ => false) (fun _ => true)
    { chats := [], topics := [("ai", ["5", "6"])] } "ai" "ai"
    { text := some "hello", audio_url := none, caption := none,
      disable_web_page_preview := true } [5, 6]
    rfl (Or.inl rfl) (by decide) (by decide)

end TopicAlerts
